import Mathlib

/-!
Verification of the real-time generation and delivery pipeline of the Alpha
chat backend: the sliding-window rate limiter (backend/rate_limiter.py), the
context-window budgeter and provider gateway (backend/ai_service.py), and the
connection registry with its streaming coordinator
(backend/websocket_manager.py).

The Python code is shallowly embedded: the Mongo rate-limit collection becomes
a list of entries, dictionaries become association lists, sets become
duplicate-free lists, asynchronous generators become the finite lists of
items they yield, and external effects (channel sends, provider backends, the
tiktoken tokenizer) become explicit function parameters describing their
outcomes.  Timestamps are integers (seconds); machine integers in the source
are unbounded Python ints, so Int and Nat are used directly.
-/

namespace Alpha

/-! ### Rate limiter (backend/rate_limiter.py)

A document of the rate_limits collection, as inserted by
AdvancedRateLimiter.check_rate_limit. -/

structure RateWindowEntry where
  key : String
  identifier : String
  timestamp : Int
  expires_at : Int
deriving DecidableEq, Repr

/-- Embedding of the delete_many call of check_rate_limit: remove every entry
for (key, identifier) whose timestamp is strictly older than window_start.
Entries of other keys or identifiers are untouched. -/
def rate_limits_delete_old (s : List RateWindowEntry) (key identifier : String)
    (window_start : Int) : List RateWindowEntry :=
  s.filter (fun e =>
    ! (decide (e.key = key) && decide (e.identifier = identifier)
        && decide (e.timestamp < window_start)))

/-- Embedding of the count_documents call of check_rate_limit: the number of
entries for (key, identifier) whose timestamp is at least window_start. -/
def countPairWin (s : List RateWindowEntry) (key identifier : String)
    (window_start : Int) : Nat :=
  (s.filter (fun e =>
    decide (e.key = key) && decide (e.identifier = identifier)
      && decide (window_start ≤ e.timestamp))).length

/-- Embedding of AdvancedRateLimiter.check_rate_limit.  The store (the
rate_limits collection) and the current time (datetime.utcnow) are explicit
arguments; the call returns the admit decision together with the store left
behind.  The source first deletes stale pair entries, then counts the pair
entries still in the window, denies without recording when the count reached
the limit, and otherwise records one fresh entry before admitting. -/
def check_rate_limit (s : List RateWindowEntry) (key : String) (limit : Nat)
    (window_seconds : Int) (identifier : String) (now : Int) :
    Bool × List RateWindowEntry :=
  let window_start := now - window_seconds
  let s1 := rate_limits_delete_old s key identifier window_start
  let current_count := countPairWin s1 key identifier window_start
  if limit ≤ current_count then
    (false, s1)
  else
    (true, s1 ++ [⟨key, identifier, now, now + window_seconds⟩])

/-- Runs a sequence of check_rate_limit calls for one (key, identifier) pair
at the given timestamps, threading the store through; returns the final store
and the list of admit decisions in call order. -/
def runAdmits (key : String) (limit : Nat) (window_seconds : Int)
    (identifier : String) :
    List RateWindowEntry → List Int → List RateWindowEntry × List Bool
  | s, [] => (s, [])
  | s, t :: ts =>
    let r := check_rate_limit s key limit window_seconds identifier t
    let rest := runAdmits key limit window_seconds identifier r.2 ts
    (rest.1, r.1 :: rest.2)

/-- Purging entries below the window start does not change the count of pair
entries at or above any threshold that is at least the purge bound. -/
theorem countPairWin_delete_old (s : List RateWindowEntry) (key identifier : String)
    (cut lo : Int) (h : cut ≤ lo) :
    countPairWin (rate_limits_delete_old s key identifier cut) key identifier lo
      = countPairWin s key identifier lo := by
  induction s with
  | nil => rfl
  | cons e s ih =>
    unfold countPairWin rate_limits_delete_old at *
    by_cases hk : e.key = key
    · by_cases hi : e.identifier = identifier
      · by_cases hlo : lo ≤ e.timestamp
        · have hcut : ¬ e.timestamp < cut := by omega
          simp [hk, hi, hlo, hcut, List.filter] at *
          omega
        · by_cases hc : e.timestamp < cut
          · simp [hk, hi, hlo, hc, List.filter] at *
            omega
          · simp [hk, hi, hlo, hc, List.filter] at *
            omega
      · simp [hk, hi, List.filter] at *
        omega
    · simp [hk, List.filter] at *
      omega

/-- Appending one entry matching the pair and lying in the window raises the
pair count by exactly one. -/
theorem countPairWin_append_fresh (s : List RateWindowEntry) (key identifier : String)
    (lo ts ex : Int) (h : lo ≤ ts) :
    countPairWin (s ++ [⟨key, identifier, ts, ex⟩]) key identifier lo
      = countPairWin s key identifier lo + 1 := by
  unfold countPairWin
  rw [List.filter_append]
  simp [h]

/-- C1.  One check_rate_limit call, described through observers of the store
it was given: it purges exactly the (key, identifier) entries older than
now - window_seconds; writing c for the number of (key, identifier) entries of
the original store with timestamp at least now - window_seconds (which equals
the count the source takes after the purge), the call returns false and leaves
the purged store untouched when c has reached the limit, and otherwise returns
true after appending exactly one fresh entry timestamped now with expiry
now + window_seconds. -/
theorem check_rate_limit_spec (s : List RateWindowEntry) (key : String)
    (limit : Nat) (window_seconds : Int) (identifier : String) (now : Int) :
    check_rate_limit s key limit window_seconds identifier now
      = (if limit ≤ countPairWin s key identifier (now - window_seconds) then
          (false, rate_limits_delete_old s key identifier (now - window_seconds))
        else
          (true, rate_limits_delete_old s key identifier (now - window_seconds)
            ++ [⟨key, identifier, now, now + window_seconds⟩])) := by
  simp only [check_rate_limit]
  rw [countPairWin_delete_old s key identifier (now - window_seconds)
    (now - window_seconds) le_rfl]

/-- If a check_rate_limit call at time t admits, the count of pair entries at
or above a threshold lo grows by at least one, provided the fresh entry lies
above lo and the purge cannot reach entries above lo.  If it denies, the count
does not drop. -/
theorem countPairWin_check_step (s : List RateWindowEntry) (key identifier : String)
    (limit : Nat) (window_seconds : Int) (t lo : Int)
    (h1 : lo ≤ t) (h2 : t - window_seconds ≤ lo) :
    (((check_rate_limit s key limit window_seconds identifier t).1 = true →
      countPairWin (check_rate_limit s key limit window_seconds identifier t).2
          key identifier lo
        = countPairWin s key identifier lo + 1) ∧
     ((check_rate_limit s key limit window_seconds identifier t).1 = false →
      countPairWin (check_rate_limit s key limit window_seconds identifier t).2
          key identifier lo
        = countPairWin s key identifier lo)) := by
  have hpurge := countPairWin_delete_old s key identifier (t - window_seconds) lo h2
  unfold check_rate_limit
  by_cases hc : limit ≤ countPairWin
      (rate_limits_delete_old s key identifier (t - window_seconds)) key identifier
      (t - window_seconds)
  · simp only [hc, if_pos]
    constructor
    · intro h; cases h
    · intro _; exact hpurge
  · simp only [hc, if_neg, not_false_eq_true]
    constructor
    · intro _
      rw [countPairWin_append_fresh _ _ _ _ _ _ h1, hpurge]
    · intro h; cases h

/-- If every call of an admission run for one pair returns true, and every
call time lies at or above a threshold lo that none of the purges can cross,
the pair count above lo grows by the length of the run. -/
theorem countPairWin_runAdmits (key identifier : String) (limit : Nat)
    (window_seconds : Int) (lo : Int) :
    ∀ (ts : List Int) (s : List RateWindowEntry),
      (∀ t ∈ ts, lo ≤ t ∧ t - window_seconds ≤ lo) →
      (∀ b ∈ (runAdmits key limit window_seconds identifier s ts).2, b = true) →
      countPairWin s key identifier lo + ts.length
        ≤ countPairWin (runAdmits key limit window_seconds identifier s ts).1
            key identifier lo := by
  intro ts
  induction ts with
  | nil => intro s _ _; simp [runAdmits]
  | cons t ts ih =>
    intro s hmem hall
    have hm := hmem t (List.mem_cons_self t ts)
    have hstep := countPairWin_check_step s key identifier limit window_seconds t lo
      hm.1 hm.2
    have hhead : (check_rate_limit s key limit window_seconds identifier t).1 = true :=
      hall (check_rate_limit s key limit window_seconds identifier t).1
        (by simp [runAdmits])
    have hgrow := hstep.1 hhead
    have htail : ∀ b ∈ (runAdmits key limit window_seconds identifier
        (check_rate_limit s key limit window_seconds identifier t).2 ts).2, b = true := by
      intro b hb
      apply hall
      simp [runAdmits]
      right
      exact hb
    have := ih (check_rate_limit s key limit window_seconds identifier t).2
      (fun u hu => hmem u (List.mem_cons_of_mem t hu)) htail
    simp only [runAdmits, List.length_cons]
    omega


/-- C9 counterexample.  The frozen claim predicts that after N consecutive
admitted calls with N strictly below the limit, the next call in the same
window is denied.  With limit 3 and window 60, one admitted call from an empty
store (N = 1 < 3) is followed by a second call at the same instant that is
admitted as well, not denied. -/
theorem check_rate_limit_below_limit_not_denied :
    (check_rate_limit [] "u1" 3 60 "chat" 0).1 = true ∧
    (check_rate_limit (check_rate_limit [] "u1" 3 60 "chat" 0).2
      "u1" 3 60 "chat" 0).1 = true := by
  constructor <;> rfl

/-- C9 amended.  If admit returns true limit times within window W for the
same (key, category) pair, then the next call within the same window for the
same pair returns false: from any starting store, run limit calls at
timestamps t with tf - W ≤ t ≤ tf; if all were admitted, the call at tf is
denied. -/
theorem runAdmits_limit_then_denied (s : List RateWindowEntry)
    (key identifier : String) (limit : Nat) (window_seconds : Int)
    (ts : List Int) (tf : Int)
    (hlen : ts.length = limit)
    (hwin : ∀ t ∈ ts, tf - window_seconds ≤ t ∧ t ≤ tf)
    (hall : ∀ b ∈ (runAdmits key limit window_seconds identifier s ts).2, b = true) :
    (check_rate_limit (runAdmits key limit window_seconds identifier s ts).1
      key limit window_seconds identifier tf).1 = false := by
  have hcount := countPairWin_runAdmits key identifier limit window_seconds
    (tf - window_seconds) ts s
    (fun t ht => ⟨(hwin t ht).1, by have := (hwin t ht).2; omega⟩) hall
  rw [check_rate_limit_spec]
  have : limit ≤ countPairWin
      (runAdmits key limit window_seconds identifier s ts).1 key identifier
      (tf - window_seconds) := by omega
  simp [this]

/-- C9 amended witness.  Two admitted calls at times 0 and 10 with limit 2 and
window 60, followed by a third call at time 30: the third call is denied. -/
theorem runAdmits_limit_then_denied_witness :
    (check_rate_limit (runAdmits "u1" 2 60 "chat" [] [0, 10]).1
      "u1" 2 60 "chat" 30).1 = false := by
  apply runAdmits_limit_then_denied [] "u1" "chat" 2 60 [0, 10] 30
  · rfl
  · intro t ht
    fin_cases ht <;> constructor <;> decide
  · intro b hb
    fin_cases hb <;> rfl

/-! ### Connection registry (backend/websocket_manager.py)

Python dictionaries are embedded as association lists and Python sets as
lists without duplicates; dictGet is d.get(k), dictSet is d[k] = v and
dictErase is del d[k] (removing every binding of the key, which coincides
with the Python del on a well-formed dictionary). -/

def dictGet {α β : Type} [DecidableEq α] : List (α × β) → α → Option β
  | [], _ => none
  | p :: l, k => if p.1 = k then some p.2 else dictGet l k

def dictSet {α β : Type} [DecidableEq α] : List (α × β) → α → β → List (α × β)
  | [], k, v => [(k, v)]
  | p :: l, k, v => if p.1 = k then (k, v) :: l else p :: dictSet l k v

def dictErase {α β : Type} [DecidableEq α] (l : List (α × β)) (k : α) :
    List (α × β) :=
  l.filter (fun p => decide (p.1 ≠ k))

/-- Embedding of the Python set.add used by ConnectionManager.connect. -/
def setAdd {α : Type} [DecidableEq α] (l : List α) (x : α) : List α :=
  if x ∈ l then l else l ++ [x]

/-- State of a ConnectionManager: active_connections maps a user id to the
set of its live channels, connection_users maps a channel back to its user
id.  Chan stands for the opaque WebSocket handle. -/
structure CMState (Chan : Type) where
  active_connections : List (String × List Chan)
  connection_users : List (Chan × String)
deriving DecidableEq, Repr

/-- Connection set currently held by a user id (empty when the id is not a
key of active_connections). -/
def connsOf {Chan : Type} [DecidableEq Chan] (s : CMState Chan) (user_id : String) :
    List Chan :=
  (dictGet s.active_connections user_id).getD []

/-- Embedding of ConnectionManager.disconnect.  The source looks the channel
up in connection_users; a missing channel, or a falsy user id (the empty
string, mirroring the Python truthiness test on user_id), leaves the state
untouched.  Otherwise the channel is discarded from the user entry, the user
entry is deleted when its set became empty, and the channel binding is
removed from connection_users.  removeFromUser is the active_connections part
of that update (the body of the if user_id in self.active_connections test
of the source). -/
def removeFromUser {Chan : Type} [DecidableEq Chan]
    (ac : List (String × List Chan)) (user_id : String) (ws : Chan) :
    List (String × List Chan) :=
  if (dictGet ac user_id).isSome then
    let conns := ((dictGet ac user_id).getD []).filter (fun w => decide (w ≠ ws))
    if conns.isEmpty then dictErase ac user_id
    else dictSet ac user_id conns
  else ac

def disconnect {Chan : Type} [DecidableEq Chan] (s : CMState Chan) (ws : Chan) :
    CMState Chan :=
  match dictGet s.connection_users ws with
  | none => s
  | some user_id =>
    if user_id = "" then s
    else ⟨removeFromUser s.active_connections user_id ws,
          dictErase s.connection_users ws⟩

/-- Embedding of ConnectionManager.send_personal_message: the payload is sent
on the channel; ok tells whether the transport send succeeded.  A failed send
is caught and answered by disconnecting the channel, so the operation itself
never raises. -/
def send_personal_message {Chan : Type} [DecidableEq Chan] (ok : Bool)
    (s : CMState Chan) (ws : Chan) : CMState Chan :=
  if ok then s else disconnect s ws

/-- Embedding of ConnectionManager.connect: the channel is accepted, added to
the user id entry of active_connections (created if absent), bound in
connection_users, and a connection confirmation is sent through
send_personal_message (whose transport outcome is ok). -/
def connect {Chan : Type} [DecidableEq Chan] (ok : Bool) (s : CMState Chan)
    (ws : Chan) (user_id : String) : CMState Chan :=
  let ac := dictSet s.active_connections user_id (setAdd (connsOf s user_id) ws)
  let cu := dictSet s.connection_users ws user_id
  send_personal_message ok ⟨ac, cu⟩ ws

/-- Embedding of ConnectionManager.send_to_user.  sendOk gives the transport
outcome per channel.  The source iterates over a copy of the whole connection
set of the user, attempting the send on every channel and collecting the
failed ones, and only afterwards disconnects each failed channel.  Returns
the new state together with the list of channels on which a send was
attempted (empty when the user id holds no entry, a no-op). -/
def send_to_user {Chan : Type} [DecidableEq Chan] (sendOk : Chan → Bool)
    (s : CMState Chan) (user_id : String) : CMState Chan × List Chan :=
  match dictGet s.active_connections user_id with
  | none => (s, [])
  | some conns =>
    let failed := conns.filter (fun w => ! sendOk w)
    (failed.foldl (fun st w => disconnect st w) s, conns)

/-- Embedding of ConnectionManager.is_user_connected: the user id is a key of
active_connections and its connection set is non-empty. -/
def is_user_connected {Chan : Type} [DecidableEq Chan] (s : CMState Chan)
    (user_id : String) : Bool :=
  (dictGet s.active_connections user_id).isSome
    && decide (0 < (connsOf s user_id).length)

theorem dictGet_erase_self {α β : Type} [DecidableEq α] (l : List (α × β)) (k : α) :
    dictGet (dictErase l k) k = none := by
  induction l with
  | nil => rfl
  | cons p l ih =>
    by_cases h : p.1 = k
    · simpa [dictErase, h] using ih
    · simpa [dictErase, dictGet, h] using ih

theorem dictGet_erase_ne {α β : Type} [DecidableEq α] (l : List (α × β))
    (k k' : α) (h : k' ≠ k) :
    dictGet (dictErase l k) k' = dictGet l k' := by
  have hkk : ¬ k = k' := fun hc => h hc.symm
  induction l with
  | nil => rfl
  | cons p l ih =>
    by_cases hp : p.1 = k
    · have hd : (decide (p.1 ≠ k)) = false := by simp [hp]
      simpa [dictErase, List.filter_cons, hd, dictGet, hp, hkk] using ih
    · have hd : (decide (p.1 ≠ k)) = true := by simp [hp]
      by_cases hq : p.1 = k'
      · simp [dictErase, List.filter_cons, hd, hp, dictGet, hq, h]
      · simpa [dictErase, List.filter_cons, hd, hp, dictGet, hq] using ih

theorem dictGet_mem {α β : Type} [DecidableEq α] (l : List (α × β)) (k : α)
    (v : β) (h : dictGet l k = some v) : (k, v) ∈ l := by
  induction l with
  | nil => cases h
  | cons p l ih =>
    by_cases hp : p.1 = k
    · simp only [dictGet, hp, if_pos, Option.some.injEq] at h
      subst h
      have : p = (k, p.2) := by
        rw [← hp]
      rw [← this]
      exact List.mem_cons_self p l
    · simp only [dictGet, hp, if_neg, not_false_eq_true] at h
      exact List.mem_cons_of_mem p (ih h)

theorem mem_dictErase {α β : Type} [DecidableEq α] (l : List (α × β)) (k : α)
    (p : α × β) (h : p ∈ dictErase l k) : p ∈ l :=
  List.mem_of_mem_filter h

theorem mem_dictSet {α β : Type} [DecidableEq α] (l : List (α × β)) (k : α)
    (v : β) (p : α × β) (h : p ∈ dictSet l k v) : p ∈ l ∨ p = (k, v) := by
  induction l with
  | nil =>
    simp only [dictSet, List.mem_singleton] at h
    right; exact h
  | cons q l ih =>
    by_cases hq : q.1 = k
    · simp only [dictSet, hq, if_pos, List.mem_cons] at h
      rcases h with h | h
      · right; exact h
      · left; exact List.mem_cons_of_mem q h
    · simp only [dictSet, hq, if_neg, not_false_eq_true, List.mem_cons] at h
      rcases h with h | h
      · left; rw [h]; exact List.mem_cons_self q l
      · rcases ih h with h1 | h1
        · left; exact List.mem_cons_of_mem q h1
        · right; exact h1

theorem dictGet_set_self {α β : Type} [DecidableEq α] (l : List (α × β))
    (k : α) (v : β) : dictGet (dictSet l k v) k = some v := by
  induction l with
  | nil => simp [dictSet, dictGet]
  | cons p l ih =>
    by_cases hp : p.1 = k
    · simp [dictSet, dictGet, hp]
    · simpa [dictSet, dictGet, hp] using ih

theorem dictGet_set_ne {α β : Type} [DecidableEq α] (l : List (α × β))
    (k k' : α) (v : β) (h : k' ≠ k) :
    dictGet (dictSet l k v) k' = dictGet l k' := by
  have hkk : ¬ k = k' := fun hc => h hc.symm
  induction l with
  | nil => simp [dictSet, dictGet, hkk]
  | cons p l ih =>
    by_cases hp : p.1 = k
    · have hp' : ¬ p.1 = k' := by rw [hp]; exact hkk
      simp [dictSet, dictGet, hp, hp', hkk]
    · by_cases hq : p.1 = k'
      · simp [dictSet, dictGet, hp, hq, h]
      · simpa [dictSet, dictGet, hp, hq] using ih

/-- C7.  Disconnect is idempotent: a second disconnect of the same channel
leaves the registry exactly where the first left it, and disconnecting a
channel that was never connected changes nothing; both calls are total, so
neither raises. -/
theorem disconnect_idempotent {Chan : Type} [DecidableEq Chan]
    (s : CMState Chan) (ws : Chan) :
    disconnect (disconnect s ws) ws = disconnect s ws ∧
    (dictGet s.connection_users ws = none → disconnect s ws = s) := by
  have hunk : ∀ s2 : CMState Chan, dictGet s2.connection_users ws = none →
      disconnect s2 ws = s2 := by
    intro s2 h2
    simp [disconnect, h2]
  refine ⟨?_, hunk s⟩
  cases hg : dictGet s.connection_users ws with
  | none => rw [hunk s hg, hunk s hg]
  | some user_id =>
    by_cases huid : user_id = ""
    · have hfix : disconnect s ws = s := by simp [disconnect, hg, huid]
      rw [hfix, hfix]
    · have hcu : (disconnect s ws).connection_users
          = dictErase s.connection_users ws := by
        simp [disconnect, hg, huid]
      apply hunk
      rw [hcu]
      exact dictGet_erase_self _ _

/-- C7 witness: in a registry holding two channels of one user, a disconnect
of the unknown channel 5 changes nothing. -/
theorem disconnect_idempotent_witness :
    dictGet (CMState.mk [("u", [1, 2])] [(1, "u"), (2, "u")]).connection_users 5
        = none ∧
    disconnect (CMState.mk [("u", [1, 2])] [(1, "u"), (2, "u")]) 5
      = CMState.mk [("u", [1, 2])] [(1, "u"), (2, "u")] :=
  ⟨rfl, (disconnect_idempotent (CMState.mk [("u", [1, 2])] [(1, "u"), (2, "u")]) 5).2 rfl⟩

/-- removeFromUser only shrinks connection sets: any member of a set after
the update was a member before. -/
theorem mem_removeFromUser {Chan : Type} [DecidableEq Chan]
    (ac : List (String × List Chan)) (uid2 : String) (ws : Chan)
    (u : String) (x : Chan)
    (h : x ∈ (dictGet (removeFromUser ac uid2 ws) u).getD []) :
    x ∈ (dictGet ac u).getD [] := by
  unfold removeFromUser at h
  by_cases hac : (dictGet ac uid2).isSome
  · rw [if_pos hac] at h
    by_cases hemp : (((dictGet ac uid2).getD []).filter
        (fun w => decide (w ≠ ws))).isEmpty
    · rw [if_pos hemp] at h
      by_cases hu : u = uid2
      · subst hu
        rw [dictGet_erase_self] at h
        cases h
      · rwa [dictGet_erase_ne _ _ _ hu] at h
    · rw [if_neg hemp] at h
      by_cases hu : u = uid2
      · subst hu
        rw [dictGet_set_self] at h
        exact List.mem_of_mem_filter h
      · rwa [dictGet_set_ne _ _ _ _ hu] at h
  · rwa [if_neg hac] at h

/-- removeFromUser really removes ws from the set of the targeted user. -/
theorem not_mem_removeFromUser_self {Chan : Type} [DecidableEq Chan]
    (ac : List (String × List Chan)) (uid : String) (ws : Chan) :
    ws ∉ (dictGet (removeFromUser ac uid ws) uid).getD [] := by
  unfold removeFromUser
  by_cases hac : (dictGet ac uid).isSome
  · rw [if_pos hac]
    by_cases hemp : (((dictGet ac uid).getD []).filter
        (fun w => decide (w ≠ ws))).isEmpty
    · rw [if_pos hemp, dictGet_erase_self]
      intro h
      cases h
    · rw [if_neg hemp, dictGet_set_self]
      intro h
      have := List.of_mem_filter h
      simp at this
  · rw [if_neg hac]
    intro h
    rcases Option.not_isSome_iff_eq_none.mp hac with hnone
    rw [hnone] at h
    cases h

/-- Disconnecting any channel never adds a channel to any connection set. -/
theorem not_mem_connsOf_disconnect {Chan : Type} [DecidableEq Chan]
    (st : CMState Chan) (w ws : Chan) (user_id : String)
    (h : ws ∉ connsOf st user_id) :
    ws ∉ connsOf (disconnect st w) user_id := by
  cases hg : dictGet st.connection_users w with
  | none => simpa [disconnect, hg] using h
  | some uid2 =>
    by_cases huid2 : uid2 = ""
    · simpa [disconnect, hg, huid2] using h
    · have hd : disconnect st w
          = ⟨removeFromUser st.active_connections uid2 w,
             dictErase st.connection_users w⟩ := by
        simp [disconnect, hg, huid2]
      rw [hd]
      intro hmem
      exact h (mem_removeFromUser st.active_connections uid2 w user_id ws hmem)

/-- Disconnecting the channel ws removes it from the connection set of the
user it is bound to. -/
theorem not_mem_connsOf_disconnect_self {Chan : Type} [DecidableEq Chan]
    (st : CMState Chan) (ws : Chan) (user_id : String)
    (hmap : dictGet st.connection_users ws = some user_id)
    (huid : user_id ≠ "") :
    ws ∉ connsOf (disconnect st ws) user_id := by
  have hd : disconnect st ws
      = ⟨removeFromUser st.active_connections user_id ws,
         dictErase st.connection_users ws⟩ := by
    simp [disconnect, hmap, huid]
  rw [hd]
  exact not_mem_removeFromUser_self st.active_connections user_id ws

/-- Disconnecting a different channel does not change the user binding of ws
in connection_users. -/
theorem dictGet_connection_users_disconnect_ne {Chan : Type} [DecidableEq Chan]
    (st : CMState Chan) (w ws : Chan) (h : w ≠ ws) :
    dictGet (disconnect st w).connection_users ws
      = dictGet st.connection_users ws := by
  unfold disconnect
  cases hg : dictGet st.connection_users w with
  | none => rfl
  | some uid2 =>
    by_cases huid2 : uid2 = ""
    · simp [huid2]
    · simp only [huid2, if_neg, not_false_eq_true]
      exact dictGet_erase_ne _ _ _ (fun hc => h hc.symm)

/-- Folding disconnect over any list of channels never adds ws to a set. -/
theorem not_mem_connsOf_foldl_disconnect {Chan : Type} [DecidableEq Chan]
    (ws : Chan) (user_id : String) :
    ∀ (L : List Chan) (st : CMState Chan), ws ∉ connsOf st user_id →
      ws ∉ connsOf (L.foldl (fun st2 w => disconnect st2 w) st) user_id := by
  intro L
  induction L with
  | nil => intro st h; exact h
  | cons w L ih =>
    intro st h
    exact ih (disconnect st w) (not_mem_connsOf_disconnect st w ws user_id h)

/-- Folding disconnect over a list containing ws removes ws from the set of
the user ws is bound to. -/
theorem not_mem_connsOf_foldl_disconnect_mem {Chan : Type} [DecidableEq Chan]
    (ws : Chan) (user_id : String) :
    ∀ (L : List Chan) (st : CMState Chan), ws ∈ L →
      dictGet st.connection_users ws = some user_id → user_id ≠ "" →
      ws ∉ connsOf (L.foldl (fun st2 w => disconnect st2 w) st) user_id := by
  intro L
  induction L with
  | nil => intro st h; cases h
  | cons w L ih =>
    intro st hmem hmap huid
    by_cases hw : w = ws
    · subst hw
      exact not_mem_connsOf_foldl_disconnect w user_id L (disconnect st w)
        (not_mem_connsOf_disconnect_self st w user_id hmap huid)
    · have hmem2 : ws ∈ L := by
        cases List.mem_cons.mp hmem with
        | inl hc => exact absurd hc.symm hw
        | inr hc => exact hc
      have hmap2 : dictGet (disconnect st w).connection_users ws = some user_id := by
        rw [dictGet_connection_users_disconnect_ne st w ws hw, hmap]
      exact ih (disconnect st w) hmem2 hmap2 huid

/-- C6.  During send_to_user for a user whose channel ws fails to send: the
send is nevertheless attempted on every channel of the set (the returned
attempt list is the whole set, taken before any pruning), and afterwards ws
has been removed from the set of that user; the operation is a total
function, so one dead channel never raises or stops delivery to the others.
The hypotheses say that ws really belongs to the set of user_id and that
connection_users binds ws to user_id (with a non-empty id, as produced by the
authenticated connect path). -/
theorem send_to_user_prunes_failed {Chan : Type} [DecidableEq Chan]
    (sendOk : Chan → Bool) (s : CMState Chan) (user_id : String) (ws : Chan)
    (conns : List Chan)
    (hconns : dictGet s.active_connections user_id = some conns)
    (hmem : ws ∈ conns)
    (hfail : sendOk ws = false)
    (hmap : dictGet s.connection_users ws = some user_id)
    (huid : user_id ≠ "") :
    (send_to_user sendOk s user_id).2 = conns ∧
    ws ∉ connsOf (send_to_user sendOk s user_id).1 user_id := by
  unfold send_to_user
  rw [hconns]
  refine ⟨rfl, ?_⟩
  have hfailmem : ws ∈ conns.filter (fun w => ! sendOk w) :=
    List.mem_filter.mpr ⟨hmem, by rw [hfail]; rfl⟩
  exact not_mem_connsOf_foldl_disconnect_mem ws user_id
    (conns.filter (fun w => ! sendOk w)) s hfailmem hmap huid

/-- C6 witness: user u holds channels 1 and 2; channel 1 fails to send.  Both
channels are attempted and channel 1 is pruned from the set of u. -/
theorem send_to_user_prunes_failed_witness :
    (send_to_user (fun w => decide (w ≠ 1))
        (CMState.mk [("u", [1, 2])] [(1, "u"), (2, "u")]) "u").2 = [1, 2] ∧
    1 ∉ connsOf (send_to_user (fun w => decide (w ≠ 1))
        (CMState.mk [("u", [1, 2])] [(1, "u"), (2, "u")]) "u").1 "u" :=
  send_to_user_prunes_failed (fun w => decide (w ≠ 1))
    (CMState.mk [("u", [1, 2])] [(1, "u"), (2, "u")]) "u" 1 [1, 2]
    rfl (by decide) rfl rfl (by decide)

/-- Invariant of the registry: active_connections never maps a user id to an
empty connection set. -/
def NoEmptySets {Chan : Type} (s : CMState Chan) : Prop :=
  ∀ p ∈ s.active_connections, p.2 ≠ []

theorem noEmptySets_removeFromUser {Chan : Type} [DecidableEq Chan]
    (ac : List (String × List Chan)) (uid : String) (ws : Chan)
    (h : ∀ p ∈ ac, p.2 ≠ []) :
    ∀ p ∈ removeFromUser ac uid ws, p.2 ≠ [] := by
  intro p hp
  unfold removeFromUser at hp
  by_cases hac : (dictGet ac uid).isSome
  · rw [if_pos hac] at hp
    by_cases hemp : (((dictGet ac uid).getD []).filter
        (fun w => decide (w ≠ ws))).isEmpty
    · rw [if_pos hemp] at hp
      exact h p (mem_dictErase ac uid p hp)
    · rw [if_neg hemp] at hp
      rcases mem_dictSet ac uid _ p hp with h1 | h1
      · exact h p h1
      · rw [h1]
        intro hc
        have hc2 : ((dictGet ac uid).getD []).filter (fun w => decide (w ≠ ws))
            = [] := hc
        rw [hc2] at hemp
        exact hemp rfl
  · rw [if_neg hac] at hp
    exact h p hp

theorem noEmptySets_disconnect {Chan : Type} [DecidableEq Chan]
    (s : CMState Chan) (ws : Chan) (h : NoEmptySets s) :
    NoEmptySets (disconnect s ws) := by
  cases hg : dictGet s.connection_users ws with
  | none => simpa [disconnect, hg] using h
  | some uid =>
    by_cases huid : uid = ""
    · simpa [disconnect, hg, huid] using h
    · have hd : disconnect s ws
          = ⟨removeFromUser s.active_connections uid ws,
             dictErase s.connection_users ws⟩ := by
        simp [disconnect, hg, huid]
      rw [hd]
      exact noEmptySets_removeFromUser s.active_connections uid ws h

theorem noEmptySets_foldl_disconnect {Chan : Type} [DecidableEq Chan] :
    ∀ (L : List Chan) (s : CMState Chan), NoEmptySets s →
      NoEmptySets (L.foldl (fun st w => disconnect st w) s) := by
  intro L
  induction L with
  | nil => intro s h; exact h
  | cons w L ih => intro s h; exact ih (disconnect s w) (noEmptySets_disconnect s w h)

/-- C10.  Every ConnectionManager operation preserves the invariant that
active_connections never maps a user id to an empty set (connect with either
transport outcome of its confirmation send, disconnect, send_personal_message
with either outcome, and send_to_user under any per-channel outcomes), and
under that invariant is_user_connected answers true exactly when the user id
is a key of active_connections. -/
theorem connection_manager_invariant {Chan : Type} [DecidableEq Chan]
    (s : CMState Chan) (ok : Bool) (ws : Chan) (user_id : String)
    (sendOk : Chan → Bool) :
    (NoEmptySets s → NoEmptySets (connect ok s ws user_id)) ∧
    (NoEmptySets s → NoEmptySets (disconnect s ws)) ∧
    (NoEmptySets s → NoEmptySets (send_personal_message ok s ws)) ∧
    (NoEmptySets s → NoEmptySets ((send_to_user sendOk s user_id).1)) ∧
    (NoEmptySets s →
      (is_user_connected s user_id = true
        ↔ (dictGet s.active_connections user_id).isSome = true)) := by
  have hpm : ∀ s2 : CMState Chan, NoEmptySets s2 →
      NoEmptySets (send_personal_message ok s2 ws) := by
    intro s2 h2
    unfold send_personal_message
    by_cases hok : ok
    · rwa [if_pos hok]
    · rw [if_neg hok]
      exact noEmptySets_disconnect s2 ws h2
  refine ⟨?_, fun h => noEmptySets_disconnect s ws h, hpm s, ?_, ?_⟩
  · intro h
    apply hpm
    intro p hp
    rcases mem_dictSet s.active_connections user_id _ p hp with h1 | h1
    · exact h p h1
    · rw [h1]
      unfold setAdd
      by_cases hmem : ws ∈ connsOf s user_id
      · rw [if_pos hmem]
        intro hc
        have hc2 : connsOf s user_id = [] := hc
        rw [hc2] at hmem
        cases hmem
      · rw [if_neg hmem]
        intro hc
        cases (List.append_eq_nil.mp hc).2
  · intro h
    unfold send_to_user
    cases hg : dictGet s.active_connections user_id with
    | none => exact h
    | some conns => exact noEmptySets_foldl_disconnect _ s h
  · intro h
    unfold is_user_connected
    cases hg : dictGet s.active_connections user_id with
    | none => simp
    | some conns =>
      have hmem := dictGet_mem s.active_connections user_id conns hg
      have hne := h (user_id, conns) hmem
      have hlen : 0 < conns.length := List.length_pos.mpr hne
      simp [connsOf, hg, hlen]

/-- C10 witness: on a registry where u holds channel 1, the invariant holds,
is preserved by a disconnect of channel 1 and by a connect of channel 2 for
v, and is_user_connected agrees with key membership. -/
theorem connection_manager_invariant_witness :
    NoEmptySets (CMState.mk [("u", [1])] [(1, "u")]) ∧
    NoEmptySets (disconnect (CMState.mk [("u", [1])] [(1, "u")]) 1) ∧
    NoEmptySets (connect true (CMState.mk [("u", [1])] [(1, "u")]) 2 "v") ∧
    (is_user_connected (CMState.mk [("u", [1])] [(1, "u")]) "u" = true
      ↔ (dictGet (CMState.mk [("u", [1])] [(1, "u")] : CMState Nat).active_connections
          "u").isSome = true) := by
  have h0 : NoEmptySets (CMState.mk [("u", [1])] [(1, "u")]) := by
    intro p hp
    fin_cases hp
    simp
  refine ⟨h0, ?_, ?_, ?_⟩
  · exact (connection_manager_invariant (CMState.mk [("u", [1])] [(1, "u")])
      true 1 "u" (fun _ => true)).2.1 h0
  · exact (connection_manager_invariant (CMState.mk [("u", [1])] [(1, "u")])
      true 2 "v" (fun _ => true)).1 h0
  · exact (connection_manager_invariant (CMState.mk [("u", [1])] [(1, "u")])
      true 1 "u" (fun _ => true)).2.2.2.2 h0

/-! ### AI service (backend/ai_service.py)

Message carries the fields of models.Message that the AI service reads (the
role discriminator and the text); the persistence metadata fields (ids and
timestamps) play no part in the modelled operations. -/

inductive MessageType
  | user
  | assistant
  | system
deriving DecidableEq, Repr

structure Message where
  type : MessageType
  content : String
deriving DecidableEq, Repr

/-- Checks whether the pattern occurs as a contiguous run inside the string,
written over character lists so that it evaluates by kernel reduction; this
embeds the Python substring test (the in operator) of count_tokens. -/
def charsHavePrefix : List Char → List Char → Bool
  | [], _ => true
  | _ :: _, [] => false
  | a :: as, b :: bs => a == b && charsHavePrefix as bs

def charsContain (pat : List Char) : List Char → Bool
  | [] => pat.isEmpty
  | c :: rest => charsHavePrefix pat (c :: rest) || charsContain pat rest

def containsClaude (model : String) : Bool :=
  charsContain "claude".data model.data

/-- Embedding of AIService.count_tokens.  enc stands for the external
tiktoken pipeline (encoding_for_model followed by encode), returning the
token count or none when the lookup or the encoding raises.  Claude models
take the four-characters-per-token heuristic directly; any tiktoken failure
is caught and answered with the same heuristic, so the function is total and
never propagates an estimation error. -/
def count_tokens (enc : String → String → Option Nat) (text : String)
    (model : String) : Nat :=
  if containsClaude model then
    text.length / 4
  else
    match enc model text with
    | some n => n
    | none => text.length / 4

/-- Embedding of the AIService.model_mappings dictionary as looked up by
truncate_messages_to_fit_context: keys are the ModelName enum values (Python
str-enum members compare equal to their string values), and a miss returns
the queried string itself (the dict.get default). -/
def model_mappings_get (model : String) : String :=
  if model = "alpha-origin" then "gpt-3.5-turbo"
  else if model = "alpha-prime" then "gpt-4-turbo"
  else if model = "gpt-4" then "gpt-4"
  else if model = "gpt-4-turbo" then "gpt-4-turbo"
  else if model = "gpt-3.5-turbo" then "gpt-3.5-turbo"
  else if model = "claude-3-opus" then "claude-3-opus-20240229"
  else if model = "claude-3-sonnet" then "claude-3-sonnet-20240229"
  else model

/-- Embedding of the AIService.token_limits dictionary with its 4096
default. -/
def token_limits_get (model_key : String) : Nat :=
  if model_key = "gpt-3.5-turbo" then 4096
  else if model_key = "gpt-4" then 8192
  else if model_key = "gpt-4-turbo" then 128000
  else if model_key = "claude-3-opus-20240229" then 200000
  else if model_key = "claude-3-sonnet-20240229" then 200000
  else 4096

/-- Inner loop of truncate_messages_to_fit_context, walking the reversed
message list (most recent first) with the running token total, keeping a
message while the total stays within the budget and stopping at the first
message that would overflow.  The budget is an Int because the Python
available_tokens can go negative. -/
def keepRecent (tok : Message → Nat) (available : Int) :
    List Message → Int → List Message
  | [], _ => []
  | m :: rest, current =>
    if current + (tok m : Int) ≤ available then
      m :: keepRecent tok available rest (current + (tok m : Int))
    else
      []

/-- Embedding of AIService.truncate_messages_to_fit_context: resolve the
model key and its context limit, reserve max_tokens and the system prompt
estimate (system_prompt_tokens embeds the if system_prompt subtraction of the
source), then keep the longest suffix of recent messages that fits and
return it in chronological order. -/
def system_prompt_tokens (enc : String → String → Option Nat)
    (system_prompt : Option String) (model_key : String) : Int :=
  match system_prompt with
  | some sp => (count_tokens enc sp model_key : Int)
  | none => 0

def truncate_messages_to_fit_context (enc : String → String → Option Nat)
    (messages : List Message) (model : String) (system_prompt : Option String)
    (max_tokens : Nat) : List Message :=
  let model_key := model_mappings_get model
  let context_limit := token_limits_get model_key
  let available : Int := (context_limit : Int) - (max_tokens : Int) -
    system_prompt_tokens enc system_prompt model_key
  (keepRecent (fun m => count_tokens enc m.content model_key) available
    messages.reverse 0).reverse

/-- Total estimated tokens of a message list under a given estimator. -/
def sumTokens (tok : Message → Nat) (l : List Message) : Nat :=
  (l.map tok).sum

/-- C8.  The token estimator is a total function (the embedding returns a
Nat for every input, mirroring that the source never raises), and whenever
the external tiktoken pipeline fails on a non-Claude model, the result is the
fixed heuristic text.length / 4; Claude models take the heuristic
directly. -/
theorem count_tokens_fallback (enc : String → String → Option Nat)
    (text model : String) :
    (enc model text = none → count_tokens enc text model = text.length / 4) ∧
    (containsClaude model = true → count_tokens enc text model = text.length / 4) := by
  constructor
  · intro h
    unfold count_tokens
    by_cases hc : containsClaude model
    · rw [if_pos hc]
    · rw [if_neg hc, h]
  · intro h
    unfold count_tokens
    rw [if_pos h]

/-- C8 witness: with an always-failing tokenizer, an 11-character text on a
non-Claude model is estimated at 11 / 4 = 2 tokens. -/
theorem count_tokens_fallback_witness :
    count_tokens (fun _ _ => none) "hello world" "gpt-4" = 2 :=
  ((count_tokens_fallback (fun _ _ => none) "hello world" "gpt-4").1 rfl).trans rfl

theorem keepRecent_prefix (tok : Message → Nat) (available : Int) :
    ∀ (r : List Message) (current : Int),
      keepRecent tok available r current <+: r := by
  intro r
  induction r with
  | nil => intro current; exact List.prefix_refl []
  | cons m rest ih =>
    intro current
    unfold keepRecent
    by_cases h : current + (tok m : Int) ≤ available
    · rw [if_pos h]
      exact (List.prefix_cons_inj m).mpr (ih (current + (tok m : Int)))
    · rw [if_neg h]
      exact List.nil_prefix

theorem keepRecent_bound (tok : Message → Nat) (available : Int) :
    ∀ (r : List Message) (current : Int), current ≤ available →
      current + (sumTokens tok (keepRecent tok available r current) : Int)
        ≤ available := by
  intro r
  induction r with
  | nil => intro current h; simpa [keepRecent, sumTokens] using h
  | cons m rest ih =>
    intro current h
    unfold keepRecent
    by_cases hm : current + (tok m : Int) ≤ available
    · rw [if_pos hm]
      have := ih (current + (tok m : Int)) hm
      unfold sumTokens at *
      simp only [List.map_cons, List.sum_cons] at *
      push_cast at *
      omega
    · rw [if_neg hm]
      simpa [sumTokens] using h

theorem keepRecent_maximal (tok : Message → Nat) (available : Int) :
    ∀ (r : List Message) (current : Int) (p : List Message), p <+: r →
      (keepRecent tok available r current).length < p.length →
      available < current + (sumTokens tok p : Int) := by
  intro r
  induction r with
  | nil =>
    intro current p hp hlen
    rw [List.prefix_nil.mp hp] at hlen
    cases hlen
  | cons m rest ih =>
    intro current p hp hlen
    cases p with
    | nil => cases hlen
    | cons q p2 =>
      have hqp : q = m ∧ p2 <+: rest := List.cons_prefix_cons.mp hp
      rcases hqp with ⟨hq, hp2⟩
      subst hq
      unfold keepRecent at hlen
      by_cases hm : current + (tok q : Int) ≤ available
      · rw [if_pos hm] at hlen
        have hlen2 : (keepRecent tok available rest
            (current + (tok q : Int))).length < p2.length := by
          simpa using hlen
        have := ih (current + (tok q : Int)) p2 hp2 hlen2
        unfold sumTokens at *
        simp only [List.map_cons, List.sum_cons] at *
        push_cast at *
        omega
      · have hsum : (0 : Int) ≤ (sumTokens tok p2 : Int) := Int.ofNat_nonneg _
        unfold sumTokens at *
        simp only [List.map_cons, List.sum_cons] at *
        push_cast at *
        omega

/-- C2 amended.  truncate_messages_to_fit_context always returns a contiguous
suffix of the input in chronological order, and no strictly longer suffix
fits the budget; the fitting bound itself (estimated tokens of the result
plus max_tokens plus the system prompt estimate stays within the context
limit) holds exactly when the reserved max_tokens plus system prompt estimate
do not already exceed the context limit. -/
theorem truncate_messages_to_fit_context_spec (enc : String → String → Option Nat)
    (messages : List Message) (model : String) (system_prompt : Option String)
    (max_tokens : Nat) :
    (truncate_messages_to_fit_context enc messages model system_prompt max_tokens
        <:+ messages) ∧
    ((max_tokens : Int)
        + system_prompt_tokens enc system_prompt (model_mappings_get model)
        ≤ (token_limits_get (model_mappings_get model) : Int) →
      (sumTokens (fun m => count_tokens enc m.content (model_mappings_get model))
          (truncate_messages_to_fit_context enc messages model system_prompt
            max_tokens) : Int)
        + max_tokens
        + system_prompt_tokens enc system_prompt (model_mappings_get model)
        ≤ (token_limits_get (model_mappings_get model) : Int)) ∧
    (∀ s : List Message, s <:+ messages →
      (truncate_messages_to_fit_context enc messages model system_prompt
        max_tokens).length < s.length →
      ¬ ((sumTokens (fun m => count_tokens enc m.content (model_mappings_get model))
            s : Int)
          + max_tokens
          + system_prompt_tokens enc system_prompt (model_mappings_get model)
          ≤ (token_limits_get (model_mappings_get model) : Int))) := by
  have hres : truncate_messages_to_fit_context enc messages model system_prompt
      max_tokens
      = (keepRecent (fun m => count_tokens enc m.content (model_mappings_get model))
          ((token_limits_get (model_mappings_get model) : Int) - (max_tokens : Int)
            - system_prompt_tokens enc system_prompt (model_mappings_get model))
          messages.reverse 0).reverse := rfl
  have hpre := keepRecent_prefix
    (fun m => count_tokens enc m.content (model_mappings_get model))
    ((token_limits_get (model_mappings_get model) : Int) - (max_tokens : Int)
      - system_prompt_tokens enc system_prompt (model_mappings_get model))
    messages.reverse 0
  refine ⟨?_, ?_, ?_⟩
  · rcases hpre with ⟨t, ht⟩
    rw [hres]
    refine ⟨t.reverse, ?_⟩
    rw [← List.reverse_append, ht, List.reverse_reverse]
  · intro hbudget
    have hb := keepRecent_bound
      (fun m => count_tokens enc m.content (model_mappings_get model))
      ((token_limits_get (model_mappings_get model) : Int) - (max_tokens : Int)
        - system_prompt_tokens enc system_prompt (model_mappings_get model))
      messages.reverse 0 (by omega)
    rw [hres]
    unfold sumTokens at *
    rw [List.map_reverse, List.sum_reverse]
    omega
  · intro s hs hlen
    rcases hs with ⟨t, ht⟩
    have hsrev : s.reverse <+: messages.reverse := by
      refine ⟨t.reverse, ?_⟩
      rw [← List.reverse_append, ht]
    have hlen2 : (keepRecent
        (fun m => count_tokens enc m.content (model_mappings_get model))
        ((token_limits_get (model_mappings_get model) : Int) - (max_tokens : Int)
          - system_prompt_tokens enc system_prompt (model_mappings_get model))
        messages.reverse 0).length < s.reverse.length := by
      rw [List.length_reverse]
      have : (truncate_messages_to_fit_context enc messages model system_prompt
          max_tokens).length
          = (keepRecent
              (fun m => count_tokens enc m.content (model_mappings_get model))
              ((token_limits_get (model_mappings_get model) : Int) - (max_tokens : Int)
                - system_prompt_tokens enc system_prompt (model_mappings_get model))
              messages.reverse 0).length := by
        rw [hres, List.length_reverse]
      omega
    have hmax := keepRecent_maximal
      (fun m => count_tokens enc m.content (model_mappings_get model))
      ((token_limits_get (model_mappings_get model) : Int) - (max_tokens : Int)
        - system_prompt_tokens enc system_prompt (model_mappings_get model))
      messages.reverse 0 s.reverse hsrev hlen2
    unfold sumTokens at *
    rw [List.map_reverse, List.sum_reverse] at hmax
    omega

/-- C2 counterexample.  The frozen claim asserts the fitting bound for every
reserved-output count R.  With model gpt-3.5-turbo (context limit 4096) and
max_tokens 5000, the available budget is negative, the function returns the
empty suffix, and the claimed bound 0 + 5000 + 0 ≤ 4096 is false. -/
theorem truncate_messages_bound_fails :
    (truncate_messages_to_fit_context (fun _ t => some (1000 * t.length))
        [⟨MessageType.user, "a"⟩] "gpt-3.5-turbo" none 5000 = []) ∧
    ¬ ((sumTokens
          (fun m => count_tokens (fun _ t => some (1000 * t.length)) m.content
            (model_mappings_get "gpt-3.5-turbo"))
          (truncate_messages_to_fit_context (fun _ t => some (1000 * t.length))
            [⟨MessageType.user, "a"⟩] "gpt-3.5-turbo" none 5000) : Int)
        + 5000
        + system_prompt_tokens (fun _ t => some (1000 * t.length)) none
            (model_mappings_get "gpt-3.5-turbo")
        ≤ (token_limits_get (model_mappings_get "gpt-3.5-turbo") : Int)) := by
  constructor
  · rfl
  · decide

/-- C2 amended witness: with a 1000-tokens-per-character estimator, context
limit 4096 and reserved 2000, three one-character messages leave exactly the
last two (the returned list has length 2), the fitting bound holds for the
result, and the full three-message suffix is correctly rejected. -/
theorem truncate_messages_to_fit_context_spec_witness :
    ((2000 : Int)
        + system_prompt_tokens (fun _ t => some (1000 * t.length)) none
            (model_mappings_get "gpt-3.5-turbo")
        ≤ (token_limits_get (model_mappings_get "gpt-3.5-turbo") : Int)) ∧
    ((sumTokens
        (fun m => count_tokens (fun _ t => some (1000 * t.length)) m.content
          (model_mappings_get "gpt-3.5-turbo"))
        (truncate_messages_to_fit_context (fun _ t => some (1000 * t.length))
          [⟨MessageType.user, "a"⟩, ⟨MessageType.assistant, "b"⟩,
            ⟨MessageType.user, "c"⟩] "gpt-3.5-turbo" none 2000) : Int)
      + 2000
      + system_prompt_tokens (fun _ t => some (1000 * t.length)) none
          (model_mappings_get "gpt-3.5-turbo")
      ≤ (token_limits_get (model_mappings_get "gpt-3.5-turbo") : Int)) ∧
    ¬ ((sumTokens
          (fun m => count_tokens (fun _ t => some (1000 * t.length)) m.content
            (model_mappings_get "gpt-3.5-turbo"))
          [⟨MessageType.user, "a"⟩, ⟨MessageType.assistant, "b"⟩,
            ⟨MessageType.user, "c"⟩] : Int)
        + 2000
        + system_prompt_tokens (fun _ t => some (1000 * t.length)) none
            (model_mappings_get "gpt-3.5-turbo")
        ≤ (token_limits_get (model_mappings_get "gpt-3.5-turbo") : Int)) := by
  have hspec := truncate_messages_to_fit_context_spec
    (fun _ t => some (1000 * t.length))
    [⟨MessageType.user, "a"⟩, ⟨MessageType.assistant, "b"⟩,
      ⟨MessageType.user, "c"⟩] "gpt-3.5-turbo" none 2000
  refine ⟨by decide, hspec.2.1 (by decide), ?_⟩
  apply hspec.2.2
  · exact List.suffix_refl _
  · decide

/-! ### Provider gateway (backend/ai_service.py, generate paths)

ModelName is the models.ModelName string enum; model_mappings_of is the
AIService.model_mappings dictionary on enum keys (every member is a key, so
the dict.get defaults of the generate paths never fire). -/

inductive ModelName
  | alpha_origin
  | alpha_prime
  | gpt_4
  | gpt_4_turbo
  | gpt_3_5_turbo
  | claude_3_opus
  | claude_3_sonnet
deriving DecidableEq, Repr

def model_mappings_of : ModelName → String
  | .alpha_origin => "gpt-3.5-turbo"
  | .alpha_prime => "gpt-4-turbo"
  | .gpt_4 => "gpt-4"
  | .gpt_4_turbo => "gpt-4-turbo"
  | .gpt_3_5_turbo => "gpt-3.5-turbo"
  | .claude_3_opus => "claude-3-opus-20240229"
  | .claude_3_sonnet => "claude-3-sonnet-20240229"

/-- Test used by generate_response and generate_stream_response to pick the
provider family: model in claude-3-opus, claude-3-sonnet. -/
def isClaudeModel (m : ModelName) : Bool :=
  decide (m = ModelName.claude_3_opus) || decide (m = ModelName.claude_3_sonnet)

/-- An exception escaping a provider backend call.  The transient flag
records the error class named by the spec (network or overload versus bad
request or auth failure); the source never inspects it, which is exactly what
C4 is about. -/
structure ApiError where
  message : String
  transient : Bool
deriving DecidableEq, Repr

/-- The non-streaming response dictionary assembled by the generate paths. -/
structure AIResponse where
  content : String
  model : String
  tokens_used : Nat
  finish_reason : String
deriving DecidableEq, Repr

/-- One role-content entry of the provider wire format. -/
structure RoleContent where
  role : String
  content : String
deriving DecidableEq, Repr

/-- Embedding of AIService.format_messages_for_openai: an optional leading
system entry followed by the turns, user type mapping to role user and
everything else to assistant. -/
def format_messages_for_openai (messages : List Message)
    (system_prompt : Option String) : List RoleContent :=
  (match system_prompt with
   | some sp => [⟨"system", sp⟩]
   | none => []) ++
  messages.map (fun m =>
    ⟨if m.type = MessageType.user then "user" else "assistant", m.content⟩)

/-- Embedding of AIService.format_messages_for_claude: the turns without any
system entry, plus the system text as a separate value (empty when absent). -/
def format_messages_for_claude (messages : List Message)
    (system_prompt : Option String) : List RoleContent × String :=
  (messages.map (fun m =>
    ⟨if m.type = MessageType.user then "user" else "assistant", m.content⟩),
   system_prompt.getD "")

/-- Embedding of the tenacity retry decorator with stop_after_attempt(3):
the body is attempted at indices 0, 1, 2; the default retry predicate of
tenacity retries on every exception, so any error triggers another attempt
until the attempt budget is spent, and the last outcome is returned together
with the number of attempts made.  The exponential wait times only pace the
attempts and are not modelled. -/
def retryAttempts {α : Type} (body : Nat → Except ApiError α) :
    Nat → Nat → Except ApiError α × Nat
  | i, 0 => (body i, i + 1)
  | i, n + 1 =>
    match body i with
    | .ok a => (.ok a, i + 1)
    | .error _ => retryAttempts body (i + 1) n

def tenacity_stop_after_attempt_3 {α : Type} (body : Nat → Except ApiError α) :
    Except ApiError α × Nat :=
  retryAttempts body 0 2

/-- Embedding of AIService.generate_response_openai (non-streaming path).
backend is the openai chat.completions.create call, indexed by the attempt
number and fed the formatted messages; openai_client says whether the client
was initialized (its absence raises a ValueError inside the decorated body,
which tenacity also retries).  Sampling temperature only parameterizes the
backend call and is not modelled separately.  Returns the final outcome and
the number of attempts made. -/
def generate_response_openai (enc : String → String → Option Nat)
    (backend : List RoleContent → Nat → Except ApiError AIResponse)
    (openai_client : Bool) (messages : List Message) (model : ModelName)
    (system_prompt : Option String) (max_tokens : Nat) :
    Except ApiError AIResponse × Nat :=
  tenacity_stop_after_attempt_3 (fun i =>
    if openai_client then
      backend
        (format_messages_for_openai
          (truncate_messages_to_fit_context enc messages (model_mappings_of model)
            system_prompt max_tokens)
          system_prompt) i
    else
      Except.error ⟨"OpenAI client not initialized", false⟩)

/-- Embedding of AIService.generate_response_claude (non-streaming path),
mirroring generate_response_openai with the claude message shaping. -/
def generate_response_claude (enc : String → String → Option Nat)
    (backend : List RoleContent → String → Nat → Except ApiError AIResponse)
    (anthropic_client : Bool) (messages : List Message) (model : ModelName)
    (system_prompt : Option String) (max_tokens : Nat) :
    Except ApiError AIResponse × Nat :=
  tenacity_stop_after_attempt_3 (fun i =>
    if anthropic_client then
      let fm := format_messages_for_claude
        (truncate_messages_to_fit_context enc messages (model_mappings_of model)
          system_prompt max_tokens)
        system_prompt
      backend fm.1 fm.2 i
    else
      Except.error ⟨"Anthropic client not initialized", false⟩)

/-- The fixed apology text of the generate_response fallback dictionary; the
apostrophe of the source literal is spelled through Char.ofNat 39. -/
def apology_text : String :=
  "I apologize, but I" ++ String.singleton (Char.ofNat 39)
    ++ "m experiencing technical difficulties. Please try again in a moment."

def fallback_response : AIResponse :=
  ⟨apology_text, "fallback", 0, "error"⟩

/-- Embedding of AIService.generate_response: dispatch on the model family,
and on any exception escaping the dispatched call (after its retries) return
the fixed fallback dictionary instead of raising. -/
def generate_response (enc : String → String → Option Nat)
    (openaiBackend : List RoleContent → Nat → Except ApiError AIResponse)
    (claudeBackend : List RoleContent → String → Nat → Except ApiError AIResponse)
    (openai_client anthropic_client : Bool) (messages : List Message)
    (model : ModelName) (system_prompt : Option String) (max_tokens : Nat) :
    AIResponse :=
  let attempt :=
    if isClaudeModel model then
      (generate_response_claude enc claudeBackend anthropic_client messages model
        system_prompt max_tokens).1
    else
      (generate_response_openai enc openaiBackend openai_client messages model
        system_prompt max_tokens).1
  match attempt with
  | .ok r => r
  | .error _ => fallback_response

/-- C4 counterexample.  A backend that always raises a non-transient error
(an auth failure) is attempted 3 times by generate_response_openai, not
exactly once: the retry decorator carries no retry predicate, so permanent
errors are retried like transient ones before propagating. -/
theorem generate_response_openai_retries_auth_failure :
    (generate_response_openai (fun _ _ => none)
        (fun _ _ => Except.error ⟨"invalid api key", false⟩) true []
        ModelName.gpt_4 none 2000).2 = 3 ∧
    ¬ ((generate_response_openai (fun _ _ => none)
        (fun _ _ => Except.error ⟨"invalid api key", false⟩) true []
        ModelName.gpt_4 none 2000).2 = 1) := by
  constructor
  · rfl
  · decide

/-- C4 amended.  Every error class is treated alike by both provider paths:
when the backend fails at every attempt (with arbitrary, possibly
non-transient errors), the call is attempted exactly 3 times and the last
error propagates; no error class short-circuits to a single attempt. -/
theorem provider_retry_treats_all_errors_alike (enc : String → String → Option Nat)
    (backendO : List RoleContent → Nat → Except ApiError AIResponse)
    (backendC : List RoleContent → String → Nat → Except ApiError AIResponse)
    (messages : List Message) (model : ModelName) (system_prompt : Option String)
    (max_tokens : Nat) (errO errC : Nat → ApiError)
    (hO : ∀ fm i, backendO fm i = Except.error (errO i))
    (hC : ∀ fm sys i, backendC fm sys i = Except.error (errC i)) :
    generate_response_openai enc backendO true messages model system_prompt
        max_tokens = (Except.error (errO 2), 3) ∧
    generate_response_claude enc backendC true messages model system_prompt
        max_tokens = (Except.error (errC 2), 3) := by
  constructor
  · simp [generate_response_openai, tenacity_stop_after_attempt_3, retryAttempts,
      hO]
  · simp [generate_response_claude, tenacity_stop_after_attempt_3, retryAttempts,
      hC]

/-- C4 amended witness: a backend failing every attempt with a bad request is
attempted 3 times on both paths and the error propagates. -/
theorem provider_retry_treats_all_errors_alike_witness :
    generate_response_openai (fun _ _ => none)
        (fun _ _ => Except.error ⟨"bad request", false⟩) true []
        ModelName.gpt_4 none 2000
      = (Except.error ⟨"bad request", false⟩, 3) ∧
    generate_response_claude (fun _ _ => none)
        (fun _ _ _ => Except.error ⟨"bad request", false⟩) true []
        ModelName.claude_3_opus none 2000
      = (Except.error ⟨"bad request", false⟩, 3) :=
  provider_retry_treats_all_errors_alike (fun _ _ => none)
    (fun _ _ => Except.error ⟨"bad request", false⟩)
    (fun _ _ _ => Except.error ⟨"bad request", false⟩)
    [] ModelName.gpt_4 none 2000
    (fun _ => ⟨"bad request", false⟩) (fun _ => ⟨"bad request", false⟩)
    (fun _ _ => rfl) (fun _ _ _ => rfl)

/-- C5.  When the dispatched provider path still carries an error after its
retries, generate_response returns the fixed fallback value instead of
raising (the embedding is a total function into AIResponse): its content is
the apology text and its finish_reason is the string error. -/
theorem generate_response_fallback (enc : String → String → Option Nat)
    (openaiBackend : List RoleContent → Nat → Except ApiError AIResponse)
    (claudeBackend : List RoleContent → String → Nat → Except ApiError AIResponse)
    (openai_client anthropic_client : Bool) (messages : List Message)
    (model : ModelName) (system_prompt : Option String) (max_tokens : Nat)
    (e : ApiError) :
    (isClaudeModel model = false →
      (generate_response_openai enc openaiBackend openai_client messages model
        system_prompt max_tokens).1 = Except.error e →
      generate_response enc openaiBackend claudeBackend openai_client
        anthropic_client messages model system_prompt max_tokens
        = fallback_response) ∧
    (isClaudeModel model = true →
      (generate_response_claude enc claudeBackend anthropic_client messages model
        system_prompt max_tokens).1 = Except.error e →
      generate_response enc openaiBackend claudeBackend openai_client
        anthropic_client messages model system_prompt max_tokens
        = fallback_response) ∧
    fallback_response.content = apology_text ∧
    fallback_response.finish_reason = "error" := by
  refine ⟨?_, ?_, rfl, rfl⟩
  · intro hdisp herr
    unfold generate_response
    rw [hdisp]
    simp only [Bool.false_eq_true, if_neg, not_false_eq_true]
    rw [herr]
  · intro hdisp herr
    unfold generate_response
    rw [hdisp]
    simp only [if_pos]
    rw [herr]

/-- C5 witness: with a backend failing every attempt, generate_response on
gpt-4 returns exactly the fallback value. -/
theorem generate_response_fallback_witness :
    (generate_response_openai (fun _ _ => none)
        (fun _ _ => Except.error ⟨"boom", true⟩) true [] ModelName.gpt_4
        none 2000).1 = Except.error ⟨"boom", true⟩ ∧
    generate_response (fun _ _ => none)
        (fun _ _ => Except.error ⟨"boom", true⟩)
        (fun _ _ _ => Except.error ⟨"boom", true⟩) true true []
        ModelName.gpt_4 none 2000 = fallback_response :=
  ⟨rfl,
    (generate_response_fallback (fun _ _ => none)
      (fun _ _ => Except.error ⟨"boom", true⟩)
      (fun _ _ _ => Except.error ⟨"boom", true⟩) true true []
      ModelName.gpt_4 none 2000 ⟨"boom", true⟩).1 rfl rfl⟩

/-! ### Streaming (backend/ai_service.py generate_stream_response and
backend/websocket_manager.py StreamingResponseManager.stream_ai_response)

A provider stream is the sequence of wire events the backend yielded before
either finishing or raising; the failure field carries the exception text
when the iteration (or the stream setup inside generate_response, whose
fallback dictionary has no stream key) raised. -/

inductive ClaudeEvent
  | content_block_delta (text : String)
  | message_stop
  | other_event
deriving DecidableEq, Repr

structure OpenAIEvent where
  delta_content : Option String
  finish_reason : Option String
deriving DecidableEq, Repr

/-- An item yielded by the generate_stream_response asynchronous generator:
a dictionary whose type field is chunk, end or error. -/
inductive GenItem
  | chunk (content : String)
  | endItem (finish_reason : String)
  | errorItem (content error : String)
deriving DecidableEq, Repr

inductive ProviderStream
  | claude (events : List ClaudeEvent) (failure : Option String)
  | openai (events : List OpenAIEvent) (failure : Option String)
deriving DecidableEq, Repr

/-- Claude branch of generate_stream_response: a content_block_delta event
yields a chunk item, a message_stop yields the end item, anything else
yields nothing. -/
def claudeItem : ClaudeEvent → Option GenItem
  | .content_block_delta t => some (GenItem.chunk t)
  | .message_stop => some (GenItem.endItem "stop")
  | .other_event => none

/-- OpenAI branch of generate_stream_response: one wire event can yield a
chunk item (when the delta content is truthy, so a present empty string
yields nothing) and an end item (when finish_reason is present). -/
def openaiItems (ev : OpenAIEvent) : List GenItem :=
  (match ev.delta_content with
   | some t => if t = "" then [] else [GenItem.chunk t]
   | none => []) ++
  (match ev.finish_reason with
   | some r => [GenItem.endItem r]
   | none => [])

def stream_error_text : String :=
  "An error occurred while generating the response."

/-- Embedding of AIService.generate_stream_response.  The whole body sits in
a try/except whose handler yields an error item, so a provider failure after
some events is delivered in band as a final error item and the generator
itself never raises. -/
def generate_stream_response : ProviderStream → List GenItem
  | .claude events failure =>
    events.filterMap claudeItem ++
      (match failure with
       | some e => [GenItem.errorItem stream_error_text e]
       | none => [])
  | .openai events failure =>
    (events.map openaiItems).flatten ++
      (match failure with
       | some e => [GenItem.errorItem stream_error_text e]
       | none => [])

/-- A frame delivered to the connections of the requesting user by
StreamingResponseManager.stream_ai_response. -/
inductive Frame
  | stream_start (chat_id message_id : String)
  | stream_chunk (chat_id message_id : String) (chunk : GenItem)
  | stream_end (chat_id message_id full_content : String)
  | stream_error (chat_id message_id error : String)
deriving DecidableEq, Repr

def frameKind : Frame → String
  | .stream_start _ _ => "stream_start"
  | .stream_chunk _ _ _ => "stream_chunk"
  | .stream_end _ _ _ => "stream_end"
  | .stream_error _ _ _ => "stream_error"

def itemContent : GenItem → String
  | .chunk c => c
  | .endItem _ => ""
  | .errorItem c _ => c

/-- The full_content accumulator of stream_ai_response: each consumed item
whose content field is truthy is appended. -/
def accumulateContent (items : List GenItem) : String :=
  items.foldl
    (fun acc it => if itemContent it = "" then acc else acc ++ itemContent it) ""

/-- Embedding of StreamingResponseManager.stream_ai_response: a stream_start
frame, one stream_chunk frame wrapping every item the generator yields
(whatever its type field says), and then a stream_end frame carrying the
accumulated content.  The except handler sending a stream_error frame fires
only when the generator itself raises after the given items
(generator_failure); generate_stream_response never does. -/
def stream_ai_response (chat_id message_id : String) (items : List GenItem)
    (generator_failure : Option String) : List Frame :=
  Frame.stream_start chat_id message_id ::
    (items.map (fun it => Frame.stream_chunk chat_id message_id it) ++
      (match generator_failure with
       | none => [Frame.stream_end chat_id message_id (accumulateContent items)]
       | some e => [Frame.stream_error chat_id message_id e]))

theorem map_frameKind_chunks (chat_id message_id : String) :
    ∀ items : List GenItem,
      (items.map (fun it => Frame.stream_chunk chat_id message_id it)).map frameKind
        = List.replicate items.length "stream_chunk" := by
  intro items
  induction items with
  | nil => rfl
  | cons it items ih => simp [frameKind, ih, List.replicate_succ]

theorem stream_ai_response_kinds (chat_id message_id : String)
    (items : List GenItem) :
    (stream_ai_response chat_id message_id items none).map frameKind
      = "stream_start"
          :: (List.replicate items.length "stream_chunk" ++ ["stream_end"]) := by
  show (Frame.stream_start chat_id message_id ::
      (items.map (fun it => Frame.stream_chunk chat_id message_id it) ++
        [Frame.stream_end chat_id message_id (accumulateContent items)])).map
      frameKind = _
  rw [List.map_cons, List.map_append, map_frameKind_chunks]
  rfl

theorem filterMap_claudeItem_deltas :
    ∀ cs : List String,
      List.filterMap (claudeItem ∘ ClaudeEvent.content_block_delta) cs
        = cs.map GenItem.chunk := by
  intro cs
  induction cs with
  | nil => rfl
  | cons c cs ih => simp [Function.comp, claudeItem, ih]

/-- C3 counterexample.  A claude streaming run whose provider raises after
two delta events produces the wire frames stream_start, stream_chunk,
stream_chunk, stream_chunk, stream_end: the error is delivered in band as
the payload of a third stream_chunk frame and a stream_end frame follows,
contradicting the claimed start, chunk, chunk, error with no end. -/
theorem stream_frames_error_gets_end_frame :
    ((stream_ai_response "c1" "m1"
        (generate_stream_response (ProviderStream.claude
          [ClaudeEvent.content_block_delta "Hel",
           ClaudeEvent.content_block_delta "lo"] (some "boom"))) none).map frameKind
      = ["stream_start", "stream_chunk", "stream_chunk", "stream_chunk",
          "stream_end"]) ∧
    ((stream_ai_response "c1" "m1"
        (generate_stream_response (ProviderStream.claude
          [ClaudeEvent.content_block_delta "Hel",
           ClaudeEvent.content_block_delta "lo"] (some "boom"))) none).map frameKind
      ≠ ["stream_start", "stream_chunk", "stream_chunk", "stream_error"]) ∧
    "stream_end" ∈ (stream_ai_response "c1" "m1"
        (generate_stream_response (ProviderStream.claude
          [ClaudeEvent.content_block_delta "Hel",
           ClaudeEvent.content_block_delta "lo"] (some "boom"))) none).map frameKind := by
  refine ⟨rfl, by decide, by decide⟩

/-- C3 amended.  For every claude run: a provider failure after j delta
events yields frames stream_start, stream_chunk times (j + 1) — the last
chunk frame carrying the in-band error item — then stream_end; a normal run
of j delta events and a message_stop yields the same shape; and no
stream_error frame ever appears for a generator that yields items without
raising, which generate_stream_response never does. -/
theorem stream_frames_shape (chat_id message_id : String) (cs : List String)
    (e : String) :
    ((stream_ai_response chat_id message_id
        (generate_stream_response (ProviderStream.claude
          (cs.map ClaudeEvent.content_block_delta) (some e))) none).map frameKind
      = "stream_start"
          :: (List.replicate (cs.length + 1) "stream_chunk" ++ ["stream_end"])) ∧
    ((stream_ai_response chat_id message_id
        (generate_stream_response (ProviderStream.claude
          (cs.map ClaudeEvent.content_block_delta ++ [ClaudeEvent.message_stop])
          none)) none).map frameKind
      = "stream_start"
          :: (List.replicate (cs.length + 1) "stream_chunk" ++ ["stream_end"])) ∧
    (∀ items : List GenItem,
      "stream_error" ∉ (stream_ai_response chat_id message_id items none).map
        frameKind) := by
  refine ⟨?_, ?_, ?_⟩
  · rw [stream_ai_response_kinds]
    have hval : generate_stream_response (ProviderStream.claude
        (cs.map ClaudeEvent.content_block_delta) (some e))
        = cs.map GenItem.chunk ++ [GenItem.errorItem stream_error_text e] := by
      simp [generate_stream_response, filterMap_claudeItem_deltas]
    rw [hval]
    simp
  · rw [stream_ai_response_kinds]
    have hval : generate_stream_response (ProviderStream.claude
        (cs.map ClaudeEvent.content_block_delta ++ [ClaudeEvent.message_stop])
        none)
        = cs.map GenItem.chunk ++ [GenItem.endItem "stop"] := by
      simp [generate_stream_response, List.filterMap_append,
        filterMap_claudeItem_deltas, claudeItem]
    rw [hval]
    simp
  · intro items hmem
    rw [stream_ai_response_kinds] at hmem
    simp only [List.mem_cons, List.mem_append, List.mem_replicate,
      List.mem_singleton] at hmem
    rcases hmem with h | h | h
    · exact absurd h (by decide)
    · exact absurd h.2 (by decide)
    · exact absurd h (by decide)

/-- C3 amended witness: one delta event followed by a provider failure gives
frames stream_start, stream_chunk, stream_chunk, stream_end. -/
theorem stream_frames_shape_witness :
    (stream_ai_response "c" "m"
        (generate_stream_response (ProviderStream.claude
          [ClaudeEvent.content_block_delta "a"] (some "x"))) none).map frameKind
      = "stream_start"
          :: (List.replicate ([ClaudeEvent.content_block_delta "a"].length)
                "stream_chunk"
              ++ ["stream_chunk", "stream_end"]) := by
  have h := (stream_frames_shape "c" "m" ["a"] "x").1
  simpa using h
